import Mathlib

/-!
Verification of the PharmStockHub stock-ledger and HTTP layer.

The data model is embedded from the Drizzle schema (shared/schema.ts); the
Express route handlers are embedded from server/routes.ts and server/auth.ts.
The storage layer (server/storage.ts) is not among the provided sources, so
its operations are modelled from the specification, as flagged on each
definition.  Machine integers are modelled as `Int`/`Nat` (quantities fit in
32-bit columns and no arithmetic here can overflow them); timestamps are
abstract integers.
-/

namespace PharmStock

/-- A user row, from the `users` table of shared/schema.ts
(id, username, password, name, role, region, avatar, specialtyId). -/
structure User where
  id : Nat
  username : String
  password : String
  name : String
  role : String
  region : Option String
  avatar : Option String
  specialtyId : Option Nat
deriving Repr, DecidableEq

/-- A stock item row, from the `stockItems` table of shared/schema.ts. -/
structure StockItem where
  id : Nat
  name : String
  categoryId : Nat
  specialtyId : Option Nat
  quantity : Int
  price : Int
  expiry : Option Int
  uniqueNumber : Option String
  imageUrl : Option String
  notes : Option String
  createdBy : Nat
deriving Repr, DecidableEq

/-- A stock allocation row, from the `stockAllocations` table of
shared/schema.ts: the quantity of one item held by one user. -/
structure StockAllocation where
  id : Nat
  userId : Nat
  stockItemId : Nat
  quantity : Int
  allocatedBy : Nat
deriving Repr, DecidableEq

/-- A stock movement row, from the `stockMovements` table of shared/schema.ts.
`fromUserId = none` means the source is central inventory. -/
structure StockMovement where
  id : Nat
  stockItemId : Nat
  fromUserId : Option Nat
  toUserId : Nat
  quantity : Int
  notes : Option String
  movedAt : Int
  movedBy : Nat
deriving Repr, DecidableEq

/-- The persistent state held by the storage layer: the four entity tables
plus the id counters MemStorage uses to assign fresh primary keys. -/
structure LedgerState where
  users : List User
  items : List StockItem
  allocations : List StockAllocation
  movements : List StockMovement
  nextUserId : Nat
  nextItemId : Nat
  nextAllocId : Nat
  nextMovementId : Nat
deriving Repr, DecidableEq

/-- Modelled from the spec: `storage.getStockItem(id)` (server/storage.ts is
not among the provided sources) — look up a stock item by primary key. -/
def getStockItem (s : LedgerState) (id : Nat) : Option StockItem :=
  s.items.find? (fun it => it.id == id)

/-- Modelled from the spec: `storage.getUser(id)` — look up a user by id. -/
def getUser (s : LedgerState) (id : Nat) : Option User :=
  s.users.find? (fun u => u.id == id)

/-- Modelled from the spec: `storage.getUserByUsername(username)`. -/
def getUserByUsername (s : LedgerState) (username : String) : Option User :=
  s.users.find? (fun u => u.username == username)

/-- The key predicate identifying the allocation row of user `uid` for stock
item `itemId`. -/
def allocKey (uid itemId : Nat) (a : StockAllocation) : Bool :=
  a.userId == uid && a.stockItemId == itemId

/-- The allocation quantity of user `uid` for item `itemId` in a list of
allocation rows: the first matching row's quantity, 0 if none. -/
def allocQtyIn (allocs : List StockAllocation) (uid itemId : Nat) : Int :=
  match allocs.find? (allocKey uid itemId) with
  | some a => a.quantity
  | none => 0

/-- Modelled from the spec (§4.1 step 2): the quantity of `itemId` held by
user `uid` — the user's existing allocation quantity, 0 if none. -/
def userAllocation (s : LedgerState) (uid itemId : Nat) : Int :=
  allocQtyIn s.allocations uid itemId

/-- The contribution of one allocation row to the total allocated for
`itemId`. -/
def itemQty (itemId : Nat) (a : StockAllocation) : Int :=
  if a.stockItemId == itemId then a.quantity else 0

/-- The total quantity of `itemId` allocated across a list of allocation
rows. -/
def sumQtyIn (allocs : List StockAllocation) (itemId : Nat) : Int :=
  (allocs.map (itemQty itemId)).sum

/-- Modelled from the spec (§4.1 step 2): the sum of all existing allocation
quantities for stock item `itemId`. -/
def sumAllocations (s : LedgerState) (itemId : Nat) : Int :=
  sumQtyIn s.allocations itemId

/-- Modelled from the spec (§4.1 step 2, §9): the available quantity at the
source of a movement — the derived central pool (item.quantity minus the sum
of allocations) when `fromUserId` is absent, else the source user's
allocation. -/
def availableQty (s : LedgerState) (item : StockItem) (fromUserId : Option Nat) : Int :=
  match fromUserId with
  | none => item.quantity - sumAllocations s item.id
  | some uid => userAllocation s uid item.id

/-- Replace the first element satisfying `p` by its image under `f`
(the update of one keyed row in an in-memory table). -/
def adjustFirst {α : Type} (p : α → Bool) (f : α → α) : List α → List α
  | [] => []
  | a :: rest => if p a then f a :: rest else a :: adjustFirst p f rest

/-- Modelled from the spec (§4.1 step 4): reduce the source user's allocation
row for `itemId` by `q`. -/
def decreaseAllocation (allocs : List StockAllocation) (uid itemId : Nat) (q : Int) :
    List StockAllocation :=
  adjustFirst (allocKey uid itemId) (fun a => { a with quantity := a.quantity - q }) allocs

/-- Modelled from the spec (§4.1 step 5): increase the destination user's
existing allocation row for `itemId` by `q`. -/
def increaseAllocation (allocs : List StockAllocation) (uid itemId : Nat) (q : Int) :
    List StockAllocation :=
  adjustFirst (allocKey uid itemId) (fun a => { a with quantity := a.quantity + q }) allocs

/-- The error taxonomy of the movement transaction (spec §7). -/
inductive MoveError where
  | NotFound
  | InvalidArgument
  | InsufficientStock
deriving Repr, DecidableEq

/-- The arguments of the movement transaction, as passed by the
POST /api/movements handler after schema validation (server/routes.ts). -/
structure MoveArgs where
  stockItemId : Nat
  quantity : Int
  fromUserId : Option Nat
  toUserId : Nat
  movedBy : Nat
  notes : Option String
deriving Repr, DecidableEq

/-- §4.1 step 4: the allocation rows after the source's held quantity is
reduced (a no-op when the source is the derived central pool, which is never
stored). -/
def allocsAfterSource (s : LedgerState) (args : MoveArgs) : List StockAllocation :=
  match args.fromUserId with
  | none => s.allocations
  | some uid => decreaseAllocation s.allocations uid args.stockItemId args.quantity

/-- Does the destination user already hold an allocation row for the item
(after the source adjustment)? -/
def hasDestRow (s : LedgerState) (args : MoveArgs) : Bool :=
  ((allocsAfterSource s args).find? (allocKey args.toUserId args.stockItemId)).isSome

/-- §4.1 step 5: increment, or create with a fresh id, the destination
user's allocation row. -/
def allocsAfterMove (s : LedgerState) (args : MoveArgs) : List StockAllocation :=
  if hasDestRow s args then
    increaseAllocation (allocsAfterSource s args) args.toUserId args.stockItemId
      args.quantity
  else
    allocsAfterSource s args ++
      [{ id := s.nextAllocId, userId := args.toUserId,
         stockItemId := args.stockItemId, quantity := args.quantity,
         allocatedBy := args.movedBy }]

/-- §4.1 step 6: the appended movement record. -/
def newMovement (s : LedgerState) (args : MoveArgs) (now : Int) : StockMovement :=
  { id := s.nextMovementId, stockItemId := args.stockItemId,
    fromUserId := args.fromUserId, toUserId := args.toUserId,
    quantity := args.quantity, notes := args.notes,
    movedAt := now, movedBy := args.movedBy }

/-- §4.1 steps 4-6 combined: the state after a successful movement. -/
def applyMovement (s : LedgerState) (args : MoveArgs) (now : Int) : LedgerState :=
  { s with allocations := allocsAfterMove s args,
           movements := s.movements ++ [newMovement s args now],
           nextAllocId := if hasDestRow s args then s.nextAllocId else s.nextAllocId + 1,
           nextMovementId := s.nextMovementId + 1 }

/-- Modelled from the spec: `executeStockMovementTransaction` / `moveStock`
(server/storage.ts is not among the provided sources; spec §4.1 defines the
operation).  Validates the quantity (positive, else `InvalidArgument`), loads
the item (`NotFound` if absent), resolves the destination user
(`InvalidArgument` if unresolvable), computes the available quantity at the
source, fails `InsufficientStock` when the request exceeds it, otherwise
decrements the source allocation (the central pool is derived, never stored),
increments or creates the destination allocation, and appends one immutable
movement record.  The returned state is the input state unchanged on every
error path. -/
def moveStock (s : LedgerState) (args : MoveArgs) (now : Int) :
    Except MoveError StockMovement × LedgerState :=
  if args.quantity ≤ 0 then (Except.error MoveError.InvalidArgument, s)
  else
    match getStockItem s args.stockItemId with
    | none => (Except.error MoveError.NotFound, s)
    | some item =>
      match getUser s args.toUserId with
      | none => (Except.error MoveError.InvalidArgument, s)
      | some _ =>
        if availableQty s item args.fromUserId < args.quantity then
          (Except.error MoveError.InsufficientStock, s)
        else
          (Except.ok (newMovement s args now), applyMovement s args now)

/-! ## Role permissions (ROLE_PERMISSIONS, shared/schema.ts lines 180-253) -/

/-- The list of permission flags of one role, in the order of the source
object literal. -/
def PermRow := List (String × Bool)

/-- The static role→permission table, transcribed field by field from
`ROLE_PERMISSIONS` in shared/schema.ts. -/
def rolePermissionTable : List (String × List (String × Bool)) :=
  [ ("ceo",
      [("canViewAll", true), ("canAddItems", true), ("canEditItems", true),
       ("canRemoveItems", true), ("canMoveStock", true), ("canManageUsers", true),
       ("canViewReports", true), ("canAccessSettings", true),
       ("canManageSpecialties", true), ("canSeeAllSpecialties", true)]),
    ("marketer",
      [("canViewAll", false), ("canAddItems", true), ("canEditItems", true),
       ("canRemoveItems", true), ("canMoveStock", true), ("canManageUsers", false),
       ("canViewReports", false), ("canAccessSettings", false),
       ("canManageSpecialties", false), ("canSeeAllSpecialties", false)]),
    ("salesManager",
      [("canViewAll", false), ("canAddItems", true), ("canEditItems", true),
       ("canRemoveItems", true), ("canMoveStock", true), ("canManageUsers", false),
       ("canViewReports", false), ("canAccessSettings", false),
       ("canManageSpecialties", false), ("canSeeAllSpecialties", false)]),
    ("stockManager",
      [("canViewAll", false), ("canAddItems", true), ("canEditItems", true),
       ("canRemoveItems", true), ("canMoveStock", false), ("canManageUsers", false),
       ("canViewReports", false), ("canAccessSettings", true),
       ("canManageSpecialties", false), ("canSeeAllSpecialties", false)]),
    ("admin",
      [("canViewAll", true), ("canAddItems", true), ("canEditItems", true),
       ("canRemoveItems", true), ("canMoveStock", false), ("canManageUsers", true),
       ("canViewReports", true), ("canAccessSettings", true),
       ("canManageSpecialties", true), ("canSeeAllSpecialties", true)]),
    ("medicalRep",
      [("canViewAll", false), ("canAddItems", false), ("canEditItems", false),
       ("canRemoveItems", false), ("canMoveStock", false), ("canManageUsers", false),
       ("canViewReports", false), ("canAccessSettings", false),
       ("canManageSpecialties", false), ("canSeeAllSpecialties", false)]) ]

/-- The role names that appear in `ROLE_PERMISSIONS`. -/
def knownRoles : List String :=
  ["ceo", "marketer", "salesManager", "stockManager", "admin", "medicalRep"]

/-- The permission names that appear in `ROLE_PERMISSIONS`. -/
def knownPermissions : List String :=
  ["canViewAll", "canAddItems", "canEditItems", "canRemoveItems", "canMoveStock",
   "canManageUsers", "canViewReports", "canAccessSettings", "canManageSpecialties",
   "canSeeAllSpecialties"]

/-- Look up one flag in the static table; a JavaScript property access on a
missing role or permission name yields `undefined`, i.e. denial: `false`. -/
def rolePermissions (role perm : String) : Bool :=
  match rolePermissionTable.find? (fun rp => rp.1 == role) with
  | some rp =>
    match rp.2.find? (fun pv => pv.1 == perm) with
    | some pv => pv.2
    | none => false
  | none => false

/-- Modelled from the spec: `storage.hasPermission(userId, permissionName)`
(server/storage.ts is not among the provided sources; spec §4.2) — resolve
the user's role and look the flag up in the static table, `false` when the
user, role or permission name is unknown. -/
def storageHasPermission (s : LedgerState) (userId : Nat) (perm : String) : Bool :=
  match getUser s userId with
  | some u => rolePermissions u.role perm
  | none => false

/-- The `hasPermission` middleware of server/auth.ts lines 124-142, applied
to an authenticated user: the CEO role always passes, every other role is
checked against the storage-layer table lookup. -/
def checkPermission (s : LedgerState) (u : User) (perm : String) : Bool :=
  u.role == "ceo" || storageHasPermission s u.id perm

/-! ## HTTP layer -/

/-- A response body, abstracting the JSON payloads the handlers emit.  User
objects are kept as explicit field lists so that the presence or absence of a
`password` field is observable. -/
inductive RespBody where
  | movement (m : StockMovement)
  | message (text : String)
  | userObj (fields : List (String × String))
  | userList (objs : List (List (String × String)))
  | items (l : List StockItem)
  | empty
deriving Repr, DecidableEq

/-- An HTTP response: status code and body. -/
structure HttpResponse where
  status : Nat
  body : RespBody
deriving Repr, DecidableEq

/-- Modelled from the spec (§6, §7): the Express error middleware that maps
transaction failures forwarded by `next(error)` to transport responses —
`NotFound` to 404, `InvalidArgument` and `InsufficientStock` to 400 (the
middleware itself is not among the provided sources). -/
def errorStatus : MoveError → Nat
  | MoveError.NotFound => 404
  | MoveError.InvalidArgument => 400
  | MoveError.InsufficientStock => 400

/-- The request body of POST /api/movements after the numeric coercions of
server/routes.ts lines 437-450 (`movedBy` is overwritten with the acting
user's id by the handler, so it is not part of the body). -/
structure MovementBody where
  stockItemId : Nat
  fromUserId : Option Nat
  toUserId : Nat
  quantity : Int
  notes : Option String
deriving Repr, DecidableEq

/-- The POST /api/movements route of server/routes.ts lines 431-474 composed
with the `hasPermission("canMoveStock")` middleware of server/auth.ts: reject
with 403 before touching the ledger when the authenticated user lacks the
permission (CEO overrides), otherwise set `movedBy` to the acting user and run
the movement transaction, answering 201 with the created movement on success
and the error middleware's 4xx on failure. -/
def postMovementRoute (s : LedgerState) (u : User) (b : MovementBody) (now : Int) :
    HttpResponse × LedgerState :=
  if checkPermission s u "canMoveStock" then
    match moveStock s { stockItemId := b.stockItemId, quantity := b.quantity,
                        fromUserId := b.fromUserId, toUserId := b.toUserId,
                        movedBy := u.id, notes := b.notes } now with
    | (Except.ok m, s') => ({ status := 201, body := RespBody.movement m }, s')
    | (Except.error e, s') =>
      ({ status := errorStatus e, body := RespBody.message "movement failed" }, s')
  else
    ({ status := 403, body := RespBody.message "Forbidden: Insufficient permissions" }, s)

/-! ## Item and user creation -/

/-- The insert payload of a stock item, the fields picked by
`insertStockItemSchema` in shared/schema.ts. -/
structure InsertStockItem where
  name : String
  categoryId : Nat
  specialtyId : Option Nat
  quantity : Int
  price : Int
  expiry : Option Int
  uniqueNumber : Option String
  imageUrl : Option String
  notes : Option String
  createdBy : Nat
deriving Repr, DecidableEq

/-- The validation of `extendedInsertStockItemSchema` (shared/schema.ts lines
124-149): name at least 2 characters, positive category id, non-negative
integer quantity and price. -/
def validateStockItem (d : InsertStockItem) : Bool :=
  decide (2 ≤ d.name.length) && decide (1 ≤ d.categoryId) &&
  decide (0 ≤ d.quantity) && decide (0 ≤ d.price)

/-- Modelled from the spec: `storage.createStockItem` (server/storage.ts is
not among the provided sources; the tests in server/tests/storage.test.ts
show it assigns a fresh id and stores the given fields). -/
def createStockItem (s : LedgerState) (d : InsertStockItem) : StockItem × LedgerState :=
  let it : StockItem :=
    { id := s.nextItemId, name := d.name, categoryId := d.categoryId,
      specialtyId := d.specialtyId, quantity := d.quantity, price := d.price,
      expiry := d.expiry, uniqueNumber := d.uniqueNumber, imageUrl := d.imageUrl,
      notes := d.notes, createdBy := d.createdBy }
  (it, { s with items := s.items ++ [it], nextItemId := s.nextItemId + 1 })

/-- The insert payload of a user, the fields picked by `insertUserSchema` in
shared/schema.ts. -/
structure InsertUser where
  username : String
  password : String
  name : String
  role : String
  region : Option String
  avatar : Option String
  specialtyId : Option Nat
deriving Repr, DecidableEq

/-- Modelled from the spec: `storage.createUser` (server/storage.ts is not
among the provided sources; the tests in server/tests/storage.test.ts show it
assigns a fresh id and stores the given fields). -/
def createUser (s : LedgerState) (d : InsertUser) : User × LedgerState :=
  let u : User :=
    { id := s.nextUserId, username := d.username, password := d.password,
      name := d.name, role := d.role, region := d.region, avatar := d.avatar,
      specialtyId := d.specialtyId }
  (u, { s with users := s.users ++ [u], nextUserId := s.nextUserId + 1 })

/-! ## Reachability (the mutating operations of the claims) -/

/-- One mutating operation of the store: user creation, validated stock-item
creation (POST /api/stock-items parses with `extendedInsertStockItemSchema`
before calling `createStockItem`), or the stock-movement transaction (which
performs every allocation update the API exposes; its result state is the
input state on every error path). -/
inductive Step : LedgerState → LedgerState → Prop where
  | newUser (s : LedgerState) (d : InsertUser) : Step s (createUser s d).2
  | newItem (s : LedgerState) (d : InsertStockItem)
      (hv : validateStockItem d = true) : Step s (createStockItem s d).2
  | move (s : LedgerState) (args : MoveArgs) (now : Int) :
      Step s (moveStock s args now).2

/-- The empty initial store. -/
def initialState : LedgerState :=
  { users := [], items := [], allocations := [], movements := [],
    nextUserId := 1, nextItemId := 1, nextAllocId := 1, nextMovementId := 1 }

/-- States reachable from the empty store through the mutating operations. -/
inductive Reachable : LedgerState → Prop where
  | init : Reachable initialState
  | step {s s' : LedgerState} : Reachable s → Step s s' → Reachable s'

/-! ## GET /api/stock-items/expiring -/

/-- The numeric value of a list of decimal digit characters. -/
def digitsToNat (cs : List Char) : Nat :=
  cs.foldl (fun n c => n * 10 + (c.toNat - 48)) 0

/-- A restricted model of JavaScript `Number(str)` as used by
`z.coerce.number().int()`: optionally `-`-signed decimal integer literals
parse to their value; every other string is mapped to `none`, standing for
the strings the zod chain rejects (`NaN` from `Number`, or a fractional
value failing `.int()`). -/
def strToInt? (str : String) : Option Int :=
  match str.data with
  | [] => none
  | c :: cs =>
    if c = '-' then
      if !cs.isEmpty && cs.all Char.isDigit then some (-(digitsToNat cs : Int))
      else none
    else
      if (c :: cs).all Char.isDigit then some (digitsToNat (c :: cs))
      else none

/-- The `daysQuerySchema` of server/routes.ts lines 28-33: an absent or empty
`days` query parameter is preprocessed to "30", then coerced to a number that
must be an integer of at least 1. -/
def parseDays (q : Option String) : Except String Int :=
  match strToInt? (match q with
    | none => "30"
    | some str => if str == "" then "30" else str) with
  | none => Except.error "Days must be a positive integer"
  | some n =>
    if n < 1 then Except.error "Days must be a positive integer"
    else Except.ok n

/-- Does the item's expiry timestamp fall within `[now, now + days]`?
(Timestamps are measured in days here; the code converts `days` to
milliseconds against `Date.now()`.) -/
def expiresWithin (now days : Int) (it : StockItem) : Bool :=
  match it.expiry with
  | some e => decide (now ≤ e) && decide (e ≤ now + days)
  | none => false

/-- Modelled from the spec: `storage.getExpiringItems(days)` (server/storage.ts
is not among the provided sources; spec §4.2) — all stock items whose expiry
timestamp falls within `[now, now + days]`. -/
def getExpiringItems (s : LedgerState) (now days : Int) : List StockItem :=
  s.items.filter (expiresWithin now days)

/-- The GET /api/stock-items/expiring route of server/routes.ts lines
247-255: parse the `days` query parameter with `daysQuerySchema` (a zod
failure propagates through `next(error)` to a 400 validation response) and
answer 200 with the expiring items. -/
def getExpiringRoute (s : LedgerState) (now : Int) (daysQ : Option String) : HttpResponse :=
  match parseDays daysQ with
  | Except.error msg => { status := 400, body := RespBody.message msg }
  | Except.ok d => { status := 200, body := RespBody.items (getExpiringItems s now d) }

/-! ## DELETE /api/stock-items/:id -/

/-- Modelled from the spec: `storage.deleteStockItem(id)` (server/storage.ts
is not among the provided sources) — remove the item, reporting whether it
existed. -/
def deleteStockItem (s : LedgerState) (id : Nat) : Bool × LedgerState :=
  if (getStockItem s id).isSome then
    (true, { s with items := s.items.filter (fun it => it.id != id) })
  else (false, s)

/-- The DELETE /api/stock-items/:id route of server/routes.ts lines 375-408:
404 when the item does not exist; otherwise unlink its uploaded image file
(when it has one and the file exists) and delete the item, answering 204.
`files` is the set of stored upload paths, standing for the uploads
directory. -/
def deleteStockItemRoute (s : LedgerState) (files : List String) (id : Nat) :
    HttpResponse × LedgerState × List String :=
  match getStockItem s id with
  | none => ({ status := 404, body := RespBody.message "Stock item not found" }, s, files)
  | some item =>
    let files1 := match item.imageUrl with
      | some url => files.filter (fun f => f != url)
      | none => files
    match deleteStockItem s id with
    | (true, s') => ({ status := 204, body := RespBody.empty }, s', files1)
    | (false, s') =>
      ({ status := 404, body := RespBody.message "Stock item not found" }, s', files1)

/-! ## User-facing routes and password stripping -/

/-- The JSON serialization of a full user row, one key/value pair per column
of the `users` table (optional columns rendered as their JSON text). -/
def userFieldList (u : User) : List (String × String) :=
  [("id", toString u.id), ("username", u.username), ("password", u.password),
   ("name", u.name), ("role", u.role), ("region", u.region.getD "null"),
   ("avatar", u.avatar.getD "null"),
   ("specialtyId", (u.specialtyId.map toString).getD "null")]

/-- The rest-spread destructuring `const \x7b password, ...rest \x7d = user`
used by every user-returning handler: the serialized user with the
`password` key removed and every other key kept. -/
def safeUserFields (u : User) : List (String × String) :=
  (userFieldList u).filter (fun kv => kv.1 != "password")

/-- The GET /api/users route of server/routes.ts lines 477-498: the users
(optionally filtered by the validated `role` query parameter), each with the
password removed. -/
def getUsersRoute (s : LedgerState) (roleFilter : Option String) : HttpResponse :=
  let us : List User := match roleFilter with
    | some r => s.users.filter (fun u => u.role == r)
    | none => s.users
  { status := 200, body := RespBody.userList (us.map safeUserFields) }

/-- The GET /api/users/:id route of server/routes.ts lines 501-516: 404 when
the user is unknown, else the user with the password removed. -/
def getUserRoute (s : LedgerState) (id : Nat) : HttpResponse :=
  match getUser s id with
  | none => { status := 404, body := RespBody.message "User not found" }
  | some u => { status := 200, body := RespBody.userObj (safeUserFields u) }

/-- The update payload of PUT /api/users/:id (any subset of the user's
writable columns). -/
structure UserUpdateBody where
  username : Option String
  password : Option String
  name : Option String
  role : Option String
  region : Option String
  avatar : Option String
  specialtyId : Option Nat
deriving Repr, DecidableEq

/-- Modelled from the spec: `storage.updateUser(id, data)` (server/storage.ts
is not among the provided sources) — overwrite the provided fields of the
stored user. -/
def applyUserUpdate (u : User) (b : UserUpdateBody) : User :=
  { u with
    username := b.username.getD u.username,
    password := b.password.getD u.password,
    name := b.name.getD u.name,
    role := b.role.getD u.role,
    region := match b.region with | some r => some r | none => u.region,
    avatar := match b.avatar with | some a => some a | none => u.avatar,
    specialtyId := match b.specialtyId with | some i => some i | none => u.specialtyId }

/-- The PUT /api/users/:id route of server/routes.ts lines 519-547: hash a
provided password with `hashPassword` (the scrypt primitive, abstracted as
`hashFn`), update the stored user, 404 when unknown, else answer with the
updated user, password removed. -/
def updateUserRoute (s : LedgerState) (hashFn : String → String) (id : Nat)
    (b : UserUpdateBody) : HttpResponse × LedgerState :=
  let b' := { b with password := b.password.map hashFn }
  match getUser s id with
  | none => ({ status := 404, body := RespBody.message "User not found" }, s)
  | some u =>
    let u' := applyUserUpdate u b'
    ({ status := 200, body := RespBody.userObj (safeUserFields u') },
     { s with users := adjustFirst (fun v => v.id == id) (fun _ => u') s.users })

/-- The registration payload of POST /api/register (server/auth.ts line 157
destructures exactly these fields from the body). -/
structure RegisterBody where
  username : String
  password : String
  name : String
  role : String
  region : Option String
deriving Repr, DecidableEq

/-- The POST /api/register route of server/auth.ts lines 155-185: 400 when
the username is taken; otherwise create the user with the scrypt hash
(abstracted as `hashFn`) of the supplied password and the role hard-coded to
"medicalRep" regardless of the body's `role`, answering 201 with the created
user, password removed. -/
def registerRoute (s : LedgerState) (hashFn : String → String) (b : RegisterBody) :
    HttpResponse × LedgerState :=
  match getUserByUsername s b.username with
  | some _ => ({ status := 400, body := RespBody.message "Username already exists" }, s)
  | none =>
    let (u, s') := createUser s
      { username := b.username, password := hashFn b.password, name := b.name,
        role := "medicalRep", region := b.region, avatar := some "",
        specialtyId := none }
    ({ status := 201, body := RespBody.userObj (safeUserFields u) }, s')

/-- The POST /api/login route of server/auth.ts lines 187-200 with the local
strategy of lines 91-103: look the user up by username and compare passwords
(`comparePasswords`, a scrypt-and-constant-time-equality primitive abstracted
as `verify supplied stored`); 401 on failure, else 200 with the user,
password removed. -/
def loginRoute (s : LedgerState) (verify : String → String → Bool)
    (username password : String) : HttpResponse :=
  match getUserByUsername s username with
  | none => { status := 401, body := RespBody.message "Incorrect username or password" }
  | some u =>
    if verify password u.password then
      { status := 200, body := RespBody.userObj (safeUserFields u) }
    else { status := 401, body := RespBody.message "Incorrect username or password" }

/-- The GET /api/user route of server/auth.ts lines 209-215: 401 when not
authenticated, else the session user, password removed. -/
def currentUserRoute (sessionUser : Option User) : HttpResponse :=
  match sessionUser with
  | none => { status := 401, body := RespBody.message "Not authenticated" }
  | some u => { status := 200, body := RespBody.userObj (safeUserFields u) }

/-- The user objects contained in a response body. -/
def bodyUserFieldLists : RespBody → List (List (String × String))
  | RespBody.userObj fields => [fields]
  | RespBody.userList objs => objs
  | _ => []

/-- No user object in the response carries a `password` field. -/
def responseHasNoPassword (r : HttpResponse) : Prop :=
  ∀ fl ∈ bodyUserFieldLists r.body, ∀ kv ∈ fl, kv.1 ≠ "password"

/-! ## Lemmas about `adjustFirst` -/

theorem adjustFirst_sum_map {α : Type} (g : α → Int) (p : α → Bool) (f : α → α)
    (l : List α) :
    ((adjustFirst p f l).map g).sum =
      (l.map g).sum + (match l.find? p with
        | some a => g (f a) - g a
        | none => 0) := by
  induction l with
  | nil => simp [adjustFirst]
  | cons a rest ih =>
    by_cases h : p a
    · simp [adjustFirst, h, List.find?_cons_of_pos _ h]
      ring
    · simp only [adjustFirst, h, if_neg, Bool.false_eq_true, not_false_eq_true,
        List.find?_cons_of_neg, List.map_cons, List.sum_cons, ih]
      cases rest.find? p <;> ring

theorem adjustFirst_find?_same {α : Type} (p : α → Bool) (f : α → α) (l : List α)
    (hf : ∀ a, p a = true → p (f a) = true) :
    (adjustFirst p f l).find? p = (l.find? p).map f := by
  induction l with
  | nil => simp [adjustFirst]
  | cons a rest ih =>
    by_cases h : p a
    · simp [adjustFirst, h, List.find?_cons_of_pos _ h, List.find?_cons_of_pos _ (hf a h)]
    · simp only [adjustFirst, h, if_neg, Bool.false_eq_true, not_false_eq_true,
        List.find?_cons_of_neg, ih]

theorem adjustFirst_find?_other {α : Type} (p q : α → Bool) (f : α → α) (l : List α)
    (h1 : ∀ a, p a = true → q a = false)
    (h2 : ∀ a, p a = true → q (f a) = false) :
    (adjustFirst p f l).find? q = l.find? q := by
  induction l with
  | nil => simp [adjustFirst]
  | cons a rest ih =>
    by_cases h : p a
    · have hqa : ¬ q a = true := by simp [h1 a h]
      have hqfa : ¬ q (f a) = true := by simp [h2 a h]
      simp [adjustFirst, h, List.find?_cons_of_neg _ hqa, List.find?_cons_of_neg _ hqfa]
    · by_cases hq : q a
      · simp [adjustFirst, h, List.find?_cons_of_pos _ hq]
      · simp [adjustFirst, h, List.find?_cons_of_neg _ hq, ih]

theorem adjustFirst_forall {α : Type} (p : α → Bool) (f : α → α) (l : List α)
    (P : α → Prop) (h : ∀ a ∈ l, P a) (hf : ∀ a ∈ l, P a → P (f a)) :
    ∀ b ∈ adjustFirst p f l, P b := by
  induction l with
  | nil => simp [adjustFirst]
  | cons a rest ih =>
    intro b hb
    by_cases hp : p a
    · simp only [adjustFirst, hp, if_pos, List.mem_cons] at hb
      rcases hb with rfl | hb
      · exact hf a (List.mem_cons_self a rest) (h a (List.mem_cons_self a rest))
      · exact h b (List.mem_cons_of_mem a hb)
    · simp only [adjustFirst, hp, Bool.false_eq_true, if_neg, not_false_eq_true,
        List.mem_cons] at hb
      rcases hb with rfl | hb
      · exact h b (List.mem_cons_self b rest)
      · exact ih (fun x hx => h x (List.mem_cons_of_mem a hx))
          (fun x hx => hf x (List.mem_cons_of_mem a hx)) b hb

/-! ## Lemmas about allocation updates -/

theorem allocKey_iff (uid itemId : Nat) (a : StockAllocation) :
    allocKey uid itemId a = true ↔ a.userId = uid ∧ a.stockItemId = itemId := by
  simp [allocKey]

theorem allocQtyIn_decrease_same (l : List StockAllocation) (uid itemId : Nat) (q : Int)
    (hsome : (l.find? (allocKey uid itemId)).isSome) :
    allocQtyIn (decreaseAllocation l uid itemId q) uid itemId
      = allocQtyIn l uid itemId - q := by
  unfold allocQtyIn decreaseAllocation
  rw [adjustFirst_find?_same]
  · rcases Option.isSome_iff_exists.mp hsome with ⟨a, ha⟩
    rw [ha]
    simp
  · intro a ha
    simpa [allocKey] using (allocKey_iff uid itemId a).mp ha

theorem allocQtyIn_increase_same (l : List StockAllocation) (uid itemId : Nat) (q : Int)
    (hsome : (l.find? (allocKey uid itemId)).isSome) :
    allocQtyIn (increaseAllocation l uid itemId q) uid itemId
      = allocQtyIn l uid itemId + q := by
  unfold allocQtyIn increaseAllocation
  rw [adjustFirst_find?_same]
  · rcases Option.isSome_iff_exists.mp hsome with ⟨a, ha⟩
    rw [ha]
    simp
  · intro a ha
    simpa [allocKey] using (allocKey_iff uid itemId a).mp ha

theorem allocQtyIn_decrease_other (l : List StockAllocation)
    (uid itemId uid' itemId' : Nat) (q : Int) (hne : uid' ≠ uid) :
    allocQtyIn (decreaseAllocation l uid itemId q) uid' itemId'
      = allocQtyIn l uid' itemId' := by
  unfold allocQtyIn decreaseAllocation
  rw [adjustFirst_find?_other]
  · intro a ha
    have h := (allocKey_iff uid itemId a).mp ha
    simp [allocKey, h.1, Ne.symm hne]
  · intro a ha
    have h := (allocKey_iff uid itemId a).mp ha
    simp [allocKey, h.1, Ne.symm hne]

theorem allocQtyIn_increase_other (l : List StockAllocation)
    (uid itemId uid' itemId' : Nat) (q : Int) (hne : uid' ≠ uid) :
    allocQtyIn (increaseAllocation l uid itemId q) uid' itemId'
      = allocQtyIn l uid' itemId' := by
  unfold allocQtyIn increaseAllocation
  rw [adjustFirst_find?_other]
  · intro a ha
    have h := (allocKey_iff uid itemId a).mp ha
    simp [allocKey, h.1, Ne.symm hne]
  · intro a ha
    have h := (allocKey_iff uid itemId a).mp ha
    simp [allocKey, h.1, Ne.symm hne]

theorem allocQtyIn_append_one (l : List StockAllocation) (row : StockAllocation)
    (uid itemId : Nat) :
    allocQtyIn (l ++ [row]) uid itemId =
      match l.find? (allocKey uid itemId) with
      | some a => a.quantity
      | none => if allocKey uid itemId row then row.quantity else 0 := by
  unfold allocQtyIn
  rw [List.find?_append]
  cases h : l.find? (allocKey uid itemId) with
  | some a => simp
  | none =>
    by_cases hr : allocKey uid itemId row
    · simp [hr]
    · simp [hr]

theorem sumQtyIn_decrease (l : List StockAllocation) (uid itemId : Nat) (q : Int)
    (hsome : (l.find? (allocKey uid itemId)).isSome) :
    sumQtyIn (decreaseAllocation l uid itemId q) itemId = sumQtyIn l itemId - q := by
  unfold sumQtyIn decreaseAllocation
  rw [adjustFirst_sum_map]
  rcases Option.isSome_iff_exists.mp hsome with ⟨a, ha⟩
  have hk := (allocKey_iff uid itemId a).mp (List.find?_some ha)
  rw [ha]
  simp only [itemQty, hk.2, beq_self_eq_true, if_pos]
  ring

theorem sumQtyIn_increase (l : List StockAllocation) (uid itemId : Nat) (q : Int)
    (hsome : (l.find? (allocKey uid itemId)).isSome) :
    sumQtyIn (increaseAllocation l uid itemId q) itemId = sumQtyIn l itemId + q := by
  unfold sumQtyIn increaseAllocation
  rw [adjustFirst_sum_map]
  rcases Option.isSome_iff_exists.mp hsome with ⟨a, ha⟩
  have hk := (allocKey_iff uid itemId a).mp (List.find?_some ha)
  rw [ha]
  simp only [itemQty, hk.2, beq_self_eq_true, if_pos]
  ring

theorem sumQtyIn_decrease_other (l : List StockAllocation) (uid itemId j : Nat) (q : Int)
    (hj : j ≠ itemId) :
    sumQtyIn (decreaseAllocation l uid itemId q) j = sumQtyIn l j := by
  unfold sumQtyIn decreaseAllocation
  rw [adjustFirst_sum_map]
  cases ha : l.find? (allocKey uid itemId) with
  | none => simp
  | some a =>
    have hk := (allocKey_iff uid itemId a).mp (List.find?_some ha)
    simp [itemQty, hk.2, Ne.symm hj]

theorem sumQtyIn_increase_other (l : List StockAllocation) (uid itemId j : Nat) (q : Int)
    (hj : j ≠ itemId) :
    sumQtyIn (increaseAllocation l uid itemId q) j = sumQtyIn l j := by
  unfold sumQtyIn increaseAllocation
  rw [adjustFirst_sum_map]
  cases ha : l.find? (allocKey uid itemId) with
  | none => simp
  | some a =>
    have hk := (allocKey_iff uid itemId a).mp (List.find?_some ha)
    simp [itemQty, hk.2, Ne.symm hj]

theorem sumQtyIn_append_one (l : List StockAllocation) (row : StockAllocation) (j : Nat) :
    sumQtyIn (l ++ [row]) j = sumQtyIn l j + itemQty j row := by
  simp [sumQtyIn]

/-! ## Effects of a successful movement on balances -/

theorem allocsAfterSource_qty_to (s : LedgerState) (args : MoveArgs)
    (hne : args.fromUserId ≠ some args.toUserId) :
    allocQtyIn (allocsAfterSource s args) args.toUserId args.stockItemId
      = allocQtyIn s.allocations args.toUserId args.stockItemId := by
  unfold allocsAfterSource
  cases hf : args.fromUserId with
  | none => rfl
  | some uid =>
    apply allocQtyIn_decrease_other
    intro h
    exact hne (by rw [hf, h])

theorem allocsAfterMove_qty_dest (s : LedgerState) (args : MoveArgs)
    (hne : args.fromUserId ≠ some args.toUserId) :
    allocQtyIn (allocsAfterMove s args) args.toUserId args.stockItemId
      = allocQtyIn s.allocations args.toUserId args.stockItemId + args.quantity := by
  unfold allocsAfterMove
  by_cases hd : hasDestRow s args
  · rw [if_pos hd,
      allocQtyIn_increase_same _ _ _ _ hd,
      allocsAfterSource_qty_to s args hne]
  · rw [if_neg hd, allocQtyIn_append_one]
    have hnone : (allocsAfterSource s args).find?
        (allocKey args.toUserId args.stockItemId) = none := by
      unfold hasDestRow at hd
      exact Option.not_isSome_iff_eq_none.mp hd
    rw [hnone]
    have hrow : allocKey args.toUserId args.stockItemId
        { id := s.nextAllocId, userId := args.toUserId,
          stockItemId := args.stockItemId, quantity := args.quantity,
          allocatedBy := args.movedBy } = true := by
      simp [allocKey]
    rw [if_pos hrow]
    have h0 : allocQtyIn s.allocations args.toUserId args.stockItemId = 0 := by
      have := allocsAfterSource_qty_to s args hne
      unfold allocQtyIn at this
      rw [hnone] at this
      unfold allocQtyIn
      rw [← this]
    rw [h0]
    ring

theorem allocsAfterMove_qty_source (s : LedgerState) (args : MoveArgs) (a : Nat)
    (hfrom : args.fromUserId = some a) (hne : a ≠ args.toUserId)
    (hsome : (s.allocations.find? (allocKey a args.stockItemId)).isSome) :
    allocQtyIn (allocsAfterMove s args) a args.stockItemId
      = allocQtyIn s.allocations a args.stockItemId - args.quantity := by
  have hsrc : allocQtyIn (allocsAfterSource s args) a args.stockItemId
      = allocQtyIn s.allocations a args.stockItemId - args.quantity := by
    unfold allocsAfterSource
    rw [hfrom]
    exact allocQtyIn_decrease_same _ _ _ _ hsome
  have hsrcSome : ((allocsAfterSource s args).find? (allocKey a args.stockItemId)).isSome := by
    unfold allocsAfterSource
    rw [hfrom]
    unfold decreaseAllocation
    rw [adjustFirst_find?_same]
    · rcases Option.isSome_iff_exists.mp hsome with ⟨x, hx⟩
      rw [hx]
      rfl
    · intro x hx
      simpa [allocKey] using (allocKey_iff a args.stockItemId x).mp hx
  unfold allocsAfterMove
  by_cases hd : hasDestRow s args
  · rw [if_pos hd, allocQtyIn_increase_other _ _ _ _ _ _ hne, hsrc]
  · rw [if_neg hd, allocQtyIn_append_one]
    rcases Option.isSome_iff_exists.mp hsrcSome with ⟨x, hx⟩
    rw [hx]
    unfold allocQtyIn at hsrc
    rw [hx] at hsrc
    exact hsrc

theorem allocsAfterMove_sum_step (s : LedgerState) (args : MoveArgs) :
    sumQtyIn (allocsAfterMove s args) args.stockItemId
      = sumQtyIn (allocsAfterSource s args) args.stockItemId + args.quantity := by
  unfold allocsAfterMove
  by_cases hd : hasDestRow s args
  · rw [if_pos hd]
    exact sumQtyIn_increase _ _ _ _ hd
  · rw [if_neg hd, sumQtyIn_append_one]
    simp [itemQty]

theorem allocsAfterMove_sum_central (s : LedgerState) (args : MoveArgs)
    (hfrom : args.fromUserId = none) :
    sumQtyIn (allocsAfterMove s args) args.stockItemId
      = sumQtyIn s.allocations args.stockItemId + args.quantity := by
  rw [allocsAfterMove_sum_step]
  unfold allocsAfterSource
  rw [hfrom]

theorem allocsAfterMove_sum_user (s : LedgerState) (args : MoveArgs) (a : Nat)
    (hfrom : args.fromUserId = some a)
    (hsome : (s.allocations.find? (allocKey a args.stockItemId)).isSome) :
    sumQtyIn (allocsAfterMove s args) args.stockItemId
      = sumQtyIn s.allocations args.stockItemId := by
  rw [allocsAfterMove_sum_step]
  unfold allocsAfterSource
  rw [hfrom, sumQtyIn_decrease _ _ _ _ hsome]
  ring

theorem allocsAfterMove_sum_other (s : LedgerState) (args : MoveArgs) (j : Nat)
    (hj : j ≠ args.stockItemId) :
    sumQtyIn (allocsAfterMove s args) j = sumQtyIn s.allocations j := by
  have hsrc : sumQtyIn (allocsAfterSource s args) j = sumQtyIn s.allocations j := by
    unfold allocsAfterSource
    cases args.fromUserId with
    | none => rfl
    | some uid => exact sumQtyIn_decrease_other _ _ _ _ _ hj
  unfold allocsAfterMove
  by_cases hd : hasDestRow s args
  · rw [if_pos hd, sumQtyIn_increase_other _ _ _ _ _ hj, hsrc]
  · rw [if_neg hd, sumQtyIn_append_one, hsrc]
    simp [itemQty, Ne.symm hj]

theorem allocsAfterMove_stockId_prop (s : LedgerState) (args : MoveArgs)
    (P : Nat → Prop) (hall : ∀ x ∈ s.allocations, P x.stockItemId)
    (hmoved : P args.stockItemId) :
    ∀ x ∈ allocsAfterMove s args, P x.stockItemId := by
  have hsrc : ∀ x ∈ allocsAfterSource s args, P x.stockItemId := by
    unfold allocsAfterSource
    cases args.fromUserId with
    | none => exact hall
    | some uid =>
      unfold decreaseAllocation
      exact adjustFirst_forall _ _ _ _ hall (fun x _ hx => hx)
  unfold allocsAfterMove
  by_cases hd : hasDestRow s args
  · rw [if_pos hd]
    unfold increaseAllocation
    exact adjustFirst_forall _ _ _ _ hsrc (fun x _ hx => hx)
  · rw [if_neg hd]
    intro x hx
    rcases List.mem_append.mp hx with hx | hx
    · exact hsrc x hx
    · rcases List.mem_singleton.mp hx with rfl
      exact hmoved

/-! ## Inversion of the movement transaction -/

theorem moveStock_error_state (s : LedgerState) (args : MoveArgs) (now : Int)
    (e : MoveError) (h : (moveStock s args now).1 = Except.error e) :
    (moveStock s args now).2 = s := by
  unfold moveStock at h ⊢
  by_cases hq : args.quantity ≤ 0
  · simp [hq]
  · cases hitem : getStockItem s args.stockItemId with
    | none => simp [hq, hitem]
    | some item =>
      cases huser : getUser s args.toUserId with
      | none => simp [hq, hitem, huser]
      | some u =>
        by_cases hav : availableQty s item args.fromUserId < args.quantity
        · simp [hq, hitem, huser, hav]
        · simp [hq, hitem, huser, hav] at h

theorem moveStock_ok_inv (s : LedgerState) (args : MoveArgs) (now : Int)
    (m : StockMovement) (s' : LedgerState)
    (h : moveStock s args now = (Except.ok m, s')) :
    0 < args.quantity ∧
    (∃ item, getStockItem s args.stockItemId = some item ∧
       args.quantity ≤ availableQty s item args.fromUserId) ∧
    (getUser s args.toUserId).isSome ∧
    m = newMovement s args now ∧ s' = applyMovement s args now := by
  unfold moveStock at h
  by_cases hq : args.quantity ≤ 0
  · simp [hq] at h
  · cases hitem : getStockItem s args.stockItemId with
    | none => simp [hq, hitem] at h
    | some item =>
      cases huser : getUser s args.toUserId with
      | none => simp [hq, hitem, huser] at h
      | some u =>
        by_cases hav : availableQty s item args.fromUserId < args.quantity
        · simp [hq, hitem, huser, hav] at h
        · simp [hq, hitem, huser, hav] at h
          exact ⟨by omega, ⟨item, rfl, by omega⟩,
            rfl, h.1.symm, h.2.symm⟩

theorem applyMovement_userAllocation (s : LedgerState) (args : MoveArgs) (now : Int)
    (uid itemId : Nat) :
    userAllocation (applyMovement s args now) uid itemId
      = allocQtyIn (allocsAfterMove s args) uid itemId := rfl

theorem applyMovement_sumAllocations (s : LedgerState) (args : MoveArgs) (now : Int)
    (itemId : Nat) :
    sumAllocations (applyMovement s args now) itemId
      = sumQtyIn (allocsAfterMove s args) itemId := rfl

theorem getStockItem_id (s : LedgerState) (id : Nat) (item : StockItem)
    (h : getStockItem s id = some item) : item.id = id := by
  have := List.find?_some h
  simpa using this

/-! ## Demo data for the concrete witnesses -/

/-- A demo user with a role that may move stock. -/
def demoUser1 : User :=
  { id := 1, username := "alice", password := "hash1", name := "Alice",
    role := "marketer", region := none, avatar := none, specialtyId := none }

/-- A second demo user, the destination of demo movements. -/
def demoUser2 : User :=
  { id := 2, username := "bob", password := "hash2", name := "Bob",
    role := "medicalRep", region := none, avatar := none, specialtyId := none }

/-- A demo stock item with 100 units, all central. -/
def demoItem : StockItem :=
  { id := 1, name := "Aspirin", categoryId := 1, specialtyId := none,
    quantity := 100, price := 0, expiry := none, uniqueNumber := none,
    imageUrl := none, notes := none, createdBy := 1 }

/-- A demo store: two users, one fully-central item, no allocations. -/
def demoState : LedgerState :=
  { users := [demoUser1, demoUser2], items := [demoItem], allocations := [],
    movements := [], nextUserId := 3, nextItemId := 2, nextAllocId := 1,
    nextMovementId := 1 }

/-! ## Claim theorems: the movement transaction -/

/-- C7: a call to the stock movement operation whose quantity is not a
positive integer fails with `InvalidArgument`, and the returned state — in
particular the movement log — is exactly the input state, so no movement is
created. -/
theorem moveStock_nonpositive_quantity (s : LedgerState) (args : MoveArgs) (now : Int)
    (h : args.quantity ≤ 0) :
    moveStock s args now = (Except.error MoveError.InvalidArgument, s) := by
  unfold moveStock
  rw [if_pos h]

theorem moveStock_nonpositive_quantity_witness :
    moveStock demoState
      { stockItemId := 1, quantity := 0, fromUserId := none, toUserId := 2,
        movedBy := 1, notes := none } 0
      = (Except.error MoveError.InvalidArgument, demoState) :=
  moveStock_nonpositive_quantity demoState
    { stockItemId := 1, quantity := 0, fromUserId := none, toUserId := 2,
      movedBy := 1, notes := none } 0 (by decide)

/-- C1: when the requested quantity exceeds the available quantity at the
source — the named user's allocation, or the derived central pool when
`fromUserId` is absent — the movement transaction fails with
`InsufficientStock` and returns the input state unchanged, so every
allocation row and the movement log are exactly as before the call. -/
theorem moveStock_insufficient_stock (s : LedgerState) (args : MoveArgs) (now : Int)
    (item : StockItem) (u : User)
    (hq : 0 < args.quantity)
    (hitem : getStockItem s args.stockItemId = some item)
    (huser : getUser s args.toUserId = some u)
    (hav : availableQty s item args.fromUserId < args.quantity) :
    moveStock s args now = (Except.error MoveError.InsufficientStock, s) := by
  have hq' : ¬ args.quantity ≤ 0 := by omega
  simp [moveStock, hq', hitem, huser, hav]

theorem moveStock_insufficient_stock_witness :
    moveStock demoState
      { stockItemId := 1, quantity := 150, fromUserId := none, toUserId := 2,
        movedBy := 1, notes := none } 0
      = (Except.error MoveError.InsufficientStock, demoState) :=
  moveStock_insufficient_stock demoState
    { stockItemId := 1, quantity := 150, fromUserId := none, toUserId := 2,
      movedBy := 1, notes := none } 0 demoItem demoUser2
    (by decide) (by decide) (by decide) (by decide)

/-- C3: a successful movement of quantity q leaves the item table — hence
the item's total quantity — unchanged; when the source is central inventory
the destination's allocation grows by exactly q and the derived
central-available amount shrinks by exactly q; when the source is a user A
distinct from the destination, A's allocation shrinks by exactly q and the
destination's grows by exactly q. -/
theorem moveStock_ok_balance (s : LedgerState) (args : MoveArgs) (now : Int)
    (m : StockMovement) (s' : LedgerState)
    (h : moveStock s args now = (Except.ok m, s')) :
    s'.items = s.items ∧
    (args.fromUserId = none →
      userAllocation s' args.toUserId args.stockItemId
        = userAllocation s args.toUserId args.stockItemId + args.quantity ∧
      ∀ item, getStockItem s args.stockItemId = some item →
        item.quantity - sumAllocations s' args.stockItemId
          = (item.quantity - sumAllocations s args.stockItemId) - args.quantity) ∧
    (∀ a, args.fromUserId = some a → a ≠ args.toUserId →
      userAllocation s' a args.stockItemId
        = userAllocation s a args.stockItemId - args.quantity ∧
      userAllocation s' args.toUserId args.stockItemId
        = userAllocation s args.toUserId args.stockItemId + args.quantity) := by
  obtain ⟨hq, ⟨item, hitem, hav⟩, hto, hm, hs'⟩ := moveStock_ok_inv s args now m s' h
  have hid : item.id = args.stockItemId := getStockItem_id s args.stockItemId item hitem
  subst hs'
  refine ⟨rfl, ?_, ?_⟩
  · intro hfrom
    have hne : args.fromUserId ≠ some args.toUserId := by
      rw [hfrom]
      intro hc
      cases hc
    constructor
    · rw [applyMovement_userAllocation]
      exact allocsAfterMove_qty_dest s args hne
    · intro item' hitem'
      rw [applyMovement_sumAllocations, allocsAfterMove_sum_central s args hfrom]
      unfold sumAllocations
      ring
  · intro a hfrom hneto
    have hsome : (s.allocations.find? (allocKey a args.stockItemId)).isSome := by
      by_contra hn
      have hnone := Option.not_isSome_iff_eq_none.mp hn
      have hz : userAllocation s a args.stockItemId = 0 := by
        unfold userAllocation allocQtyIn
        rw [hnone]
      rw [hfrom] at hav
      have hav' : args.quantity ≤ userAllocation s a item.id := hav
      rw [hid] at hav'
      omega
    have hne : args.fromUserId ≠ some args.toUserId := by
      rw [hfrom]
      intro hc
      exact hneto (by injection hc)
    constructor
    · rw [applyMovement_userAllocation]
      exact allocsAfterMove_qty_source s args a hfrom hneto hsome
    · rw [applyMovement_userAllocation]
      exact allocsAfterMove_qty_dest s args hne

theorem moveStock_ok_balance_witness :
    (applyMovement demoState
        { stockItemId := 1, quantity := 30, fromUserId := none, toUserId := 2,
          movedBy := 1, notes := none } 0).items = demoState.items ∧
    (({ stockItemId := 1, quantity := 30, fromUserId := none, toUserId := 2,
        movedBy := 1, notes := none } : MoveArgs).fromUserId = none →
      userAllocation (applyMovement demoState
          { stockItemId := 1, quantity := 30, fromUserId := none, toUserId := 2,
            movedBy := 1, notes := none } 0) 2 1
        = userAllocation demoState 2 1 + 30 ∧
      ∀ item, getStockItem demoState 1 = some item →
        item.quantity - sumAllocations (applyMovement demoState
            { stockItemId := 1, quantity := 30, fromUserId := none, toUserId := 2,
              movedBy := 1, notes := none } 0) 1
          = (item.quantity - sumAllocations demoState 1) - 30) ∧
    (∀ a, ({ stockItemId := 1, quantity := 30, fromUserId := none, toUserId := 2,
             movedBy := 1, notes := none } : MoveArgs).fromUserId = some a → a ≠ 2 →
      userAllocation (applyMovement demoState
          { stockItemId := 1, quantity := 30, fromUserId := none, toUserId := 2,
            movedBy := 1, notes := none } 0) a 1
        = userAllocation demoState a 1 - 30 ∧
      userAllocation (applyMovement demoState
          { stockItemId := 1, quantity := 30, fromUserId := none, toUserId := 2,
            movedBy := 1, notes := none } 0) 2 1
        = userAllocation demoState 2 1 + 30) :=
  moveStock_ok_balance demoState
    { stockItemId := 1, quantity := 30, fromUserId := none, toUserId := 2,
      movedBy := 1, notes := none } 0
    (newMovement demoState
      { stockItemId := 1, quantity := 30, fromUserId := none, toUserId := 2,
        movedBy := 1, notes := none } 0)
    (applyMovement demoState
      { stockItemId := 1, quantity := 30, fromUserId := none, toUserId := 2,
        movedBy := 1, notes := none } 0)
    rfl

/-! ## The accounting invariant (C2) -/

/-- The accounting invariant of spec §8: every stock item has a non-negative
quantity, and the sum of its allocations never exceeds its total quantity. -/
def Invariant (s : LedgerState) : Prop :=
  ∀ it ∈ s.items, 0 ≤ it.quantity ∧ sumAllocations s it.id ≤ it.quantity

/-- Auxiliary well-formedness carried through the induction: item ids are
below the id counter, each stored item is the row its id resolves to, and
every allocation row references an already-created item id. -/
def StrongInv (s : LedgerState) : Prop :=
  Invariant s ∧
  (∀ it ∈ s.items, it.id < s.nextItemId ∧ getStockItem s it.id = some it) ∧
  (∀ x ∈ s.allocations, x.stockItemId < s.nextItemId)

theorem sumQtyIn_eq_zero (l : List StockAllocation) (j : Nat)
    (h : ∀ x ∈ l, x.stockItemId ≠ j) : sumQtyIn l j = 0 := by
  unfold sumQtyIn
  apply List.sum_eq_zero
  intro x hx
  rcases List.mem_map.mp hx with ⟨a, ha, rfl⟩
  simp [itemQty, h a ha]

theorem applyMovement_getStockItem (s : LedgerState) (args : MoveArgs) (now : Int)
    (id : Nat) : getStockItem (applyMovement s args now) id = getStockItem s id := rfl

theorem strongInv_newUser (s : LedgerState) (d : InsertUser) (hinv : StrongInv s) :
    StrongInv (createUser s d).2 := by
  obtain ⟨hI, hD, hE⟩ := hinv
  refine ⟨?_, ?_, ?_⟩
  · intro it hit
    exact hI it hit
  · intro it hit
    exact hD it hit
  · intro x hx
    exact hE x hx

theorem createStockItem_items (s : LedgerState) (d : InsertStockItem) :
    (createStockItem s d).2.items = s.items ++ [(createStockItem s d).1] := rfl

theorem createStockItem_nextItemId (s : LedgerState) (d : InsertStockItem) :
    (createStockItem s d).2.nextItemId = s.nextItemId + 1 := rfl

theorem createStockItem_fst_id (s : LedgerState) (d : InsertStockItem) :
    (createStockItem s d).1.id = s.nextItemId := rfl

theorem createStockItem_fst_quantity (s : LedgerState) (d : InsertStockItem) :
    (createStockItem s d).1.quantity = d.quantity := rfl

theorem createStockItem_sumAllocations (s : LedgerState) (d : InsertStockItem)
    (j : Nat) : sumAllocations (createStockItem s d).2 j = sumAllocations s j := rfl

theorem createStockItem_getStockItem (s : LedgerState) (d : InsertStockItem)
    (j : Nat) :
    getStockItem (createStockItem s d).2 j =
      ((s.items.find? (fun it => it.id == j)).or
        ([(createStockItem s d).1].find? (fun it => it.id == j))) := by
  unfold getStockItem
  rw [createStockItem_items, List.find?_append]

theorem strongInv_newItem (s : LedgerState) (d : InsertStockItem)
    (hv : validateStockItem d = true) (hinv : StrongInv s) :
    StrongInv (createStockItem s d).2 := by
  obtain ⟨hI, hD, hE⟩ := hinv
  have hq : 0 ≤ d.quantity := by
    unfold validateStockItem at hv
    simp only [Bool.and_eq_true, decide_eq_true_eq] at hv
    exact hv.1.2
  have hfreshNone : s.items.find? (fun it => it.id == s.nextItemId) = none := by
    rw [List.find?_eq_none]
    intro it hit
    have := (hD it hit).1
    simp only [beq_iff_eq]
    omega
  refine ⟨?_, ?_, ?_⟩
  · intro it hit
    rw [createStockItem_items] at hit
    rcases List.mem_append.mp hit with hold | hnew
    · obtain ⟨h0, hsum⟩ := hI it hold
      rw [createStockItem_sumAllocations]
      exact ⟨h0, hsum⟩
    · rcases List.mem_singleton.mp hnew with rfl
      rw [createStockItem_sumAllocations, createStockItem_fst_id,
        createStockItem_fst_quantity]
      refine ⟨hq, ?_⟩
      show sumQtyIn s.allocations s.nextItemId ≤ d.quantity
      rw [sumQtyIn_eq_zero s.allocations s.nextItemId
        (fun (x : StockAllocation) hx => by have := hE x hx; omega)]
      exact hq
  · intro it hit
    rw [createStockItem_items] at hit
    rw [createStockItem_nextItemId]
    rcases List.mem_append.mp hit with hold | hnew
    · obtain ⟨hlt, hfind⟩ := hD it hold
      refine ⟨by omega, ?_⟩
      rw [createStockItem_getStockItem]
      unfold getStockItem at hfind
      rw [hfind]
      rfl
    · rcases List.mem_singleton.mp hnew with rfl
      rw [createStockItem_fst_id]
      refine ⟨by omega, ?_⟩
      rw [createStockItem_getStockItem, hfreshNone]
      simp [createStockItem_fst_id]
  · intro x hx
    rw [createStockItem_nextItemId]
    have := hE x hx
    omega

theorem strongInv_applyMovement (s : LedgerState) (args : MoveArgs) (now : Int)
    (m : StockMovement)
    (h : moveStock s args now = (Except.ok m, applyMovement s args now))
    (hinv : StrongInv s) : StrongInv (applyMovement s args now) := by
  obtain ⟨hI, hD, hE⟩ := hinv
  obtain ⟨hq, ⟨item, hitem, hav⟩, hto, hm, _⟩ := moveStock_ok_inv s args now m _ h
  have hid : item.id = args.stockItemId := getStockItem_id s args.stockItemId item hitem
  have hmemItem : item ∈ s.items := List.mem_of_find?_eq_some hitem
  have hstockLt : args.stockItemId < s.nextItemId := by
    have := (hD item hmemItem).1
    omega
  refine ⟨?_, ?_, ?_⟩
  · intro it hit
    obtain ⟨h0, hsum⟩ := hI it hit
    refine ⟨h0, ?_⟩
    rw [applyMovement_sumAllocations]
    by_cases hcase : it.id = args.stockItemId
    · have hit_eq : it = item := by
        have h1 := (hD it hit).2
        rw [hcase] at h1
        exact Option.some_injective _ (h1.symm.trans hitem)
      rw [hcase]
      have hsum2 : sumQtyIn s.allocations args.stockItemId ≤ it.quantity := by
        unfold sumAllocations at hsum
        rw [hcase] at hsum
        exact hsum
      have hIq : item.quantity = it.quantity := by rw [hit_eq]
      cases hfrom : args.fromUserId with
      | none =>
        rw [allocsAfterMove_sum_central s args hfrom]
        rw [hfrom] at hav
        have hav2 : args.quantity ≤
            item.quantity - sumQtyIn s.allocations item.id := hav
        rw [hid] at hav2
        omega
      | some a =>
        have hsome : (s.allocations.find? (allocKey a args.stockItemId)).isSome := by
          by_contra hn
          have hnone := Option.not_isSome_iff_eq_none.mp hn
          rw [hfrom] at hav
          have hav2 : args.quantity ≤ allocQtyIn s.allocations a item.id := hav
          have hz : allocQtyIn s.allocations a args.stockItemId = 0 := by
            simp [allocQtyIn, hnone]
          rw [hid, hz] at hav2
          omega
        rw [allocsAfterMove_sum_user s args a hfrom hsome]
        exact hsum2
    · rw [allocsAfterMove_sum_other s args it.id hcase]
      exact hsum
  · intro it hit
    obtain ⟨hlt, hfind⟩ := hD it hit
    exact ⟨hlt, by rw [applyMovement_getStockItem]; exact hfind⟩
  · intro x hx
    exact allocsAfterMove_stockId_prop s args (fun j => j < s.nextItemId)
      (fun y hy => hE y hy) hstockLt x hx

theorem strongInv_step {s s' : LedgerState} (hinv : StrongInv s) (hstep : Step s s') :
    StrongInv s' := by
  cases hstep with
  | newUser d => exact strongInv_newUser s d hinv
  | newItem d hv => exact strongInv_newItem s d hv hinv
  | move args now =>
    cases hres : (moveStock s args now).1 with
    | error e =>
      rw [moveStock_error_state s args now e hres]
      exact hinv
    | ok m =>
      have h : moveStock s args now = (Except.ok m, (moveStock s args now).2) := by
        rw [← hres]
      have hs2 : (moveStock s args now).2 = applyMovement s args now :=
        (moveStock_ok_inv s args now m _ h).2.2.2.2
      rw [hs2]
      rw [hs2] at h
      exact strongInv_applyMovement s args now m h hinv

theorem strongInv_init : StrongInv initialState := by
  refine ⟨?_, ?_, ?_⟩ <;> intro x hx <;> simp [initialState] at hx

theorem strongInv_reachable (s : LedgerState) (h : Reachable s) : StrongInv s := by
  induction h with
  | init => exact strongInv_init
  | step hr hstep ih => exact strongInv_step ih hstep

/-- C2: in every reachable state of the store, every stock item's quantity is
a non-negative integer and the sum of all allocation quantities for the item
is at most the item's total quantity; the mutating operations — item
creation, user creation and the movement transaction, which performs every
allocation update — preserve this invariant. -/
theorem reachable_invariant (s : LedgerState) (h : Reachable s) : Invariant s :=
  (strongInv_reachable s h).1

/-- The insert payloads reaching the demo store of the C2 witness. -/
def demoInsertUser1 : InsertUser :=
  { username := "alice", password := "h1", name := "Alice", role := "marketer",
    region := none, avatar := none, specialtyId := none }

/-- Second demo insert payload. -/
def demoInsertUser2 : InsertUser :=
  { username := "bob", password := "h2", name := "Bob", role := "medicalRep",
    region := none, avatar := none, specialtyId := none }

/-- Demo stock-item insert payload (100 units). -/
def demoInsertItem : InsertStockItem :=
  { name := "Aspirin", categoryId := 1, specialtyId := none, quantity := 100,
    price := 0, expiry := none, uniqueNumber := none, imageUrl := none,
    notes := none, createdBy := 1 }

/-- A state reached by creating two users, one item, and moving 30 units
from central inventory to user 2. -/
def demoReached : LedgerState :=
  (moveStock
    (createStockItem
      (createUser (createUser initialState demoInsertUser1).2 demoInsertUser2).2
      demoInsertItem).2
    { stockItemId := 1, quantity := 30, fromUserId := none, toUserId := 2,
      movedBy := 1, notes := none } 0).2

theorem reachable_invariant_witness : Invariant demoReached :=
  reachable_invariant demoReached
    (Reachable.step
      (Reachable.step
        (Reachable.step
          (Reachable.step Reachable.init (Step.newUser initialState demoInsertUser1))
          (Step.newUser (createUser initialState demoInsertUser1).2 demoInsertUser2))
        (Step.newItem
          (createUser (createUser initialState demoInsertUser1).2 demoInsertUser2).2
          demoInsertItem (by decide)))
      (Step.move
        (createStockItem
          (createUser (createUser initialState demoInsertUser1).2 demoInsertUser2).2
          demoInsertItem).2
        { stockItemId := 1, quantity := 30, fromUserId := none, toUserId := 2,
          movedBy := 1, notes := none } 0))

/-! ## Claim theorems: permissions (C4) and POST /api/movements (C5) -/

/-- C4: the permission check resolves the user's role and looks the flag up
in the static role→permission table — returning `false` whenever the user is
unknown, the role is not a key of the table, or the permission name is not a
key of the role's row — and, independently of the table, the middleware
grants every permission to a user whose role is "ceo" via the caller-side
override. -/
theorem permission_check_correct :
    (∀ (s : LedgerState) (uid : Nat) (perm : String) (u : User),
       getUser s uid = some u → storageHasPermission s uid perm = rolePermissions u.role perm) ∧
    (∀ (s : LedgerState) (uid : Nat) (perm : String),
       getUser s uid = none → storageHasPermission s uid perm = false) ∧
    (∀ role perm, role ∉ knownRoles → rolePermissions role perm = false) ∧
    (∀ role perm, perm ∉ knownPermissions → rolePermissions role perm = false) ∧
    (∀ (s : LedgerState) (u : User) (perm : String),
       u.role = "ceo" → checkPermission s u perm = true) := by
  refine ⟨?_, ?_, ?_, ?_, ?_⟩
  · intro s uid perm u hu
    unfold storageHasPermission
    rw [hu]
  · intro s uid perm hu
    unfold storageHasPermission
    rw [hu]
  · intro role perm h
    simp only [knownRoles, List.mem_cons, List.not_mem_nil, or_false, not_or] at h
    obtain ⟨h1, h2, h3, h4, h5, h6⟩ := h
    have e1 : ("ceo" == role) = false := beq_eq_false_iff_ne.mpr (Ne.symm h1)
    have e2 : ("marketer" == role) = false := beq_eq_false_iff_ne.mpr (Ne.symm h2)
    have e3 : ("salesManager" == role) = false := beq_eq_false_iff_ne.mpr (Ne.symm h3)
    have e4 : ("stockManager" == role) = false := beq_eq_false_iff_ne.mpr (Ne.symm h4)
    have e5 : ("admin" == role) = false := beq_eq_false_iff_ne.mpr (Ne.symm h5)
    have e6 : ("medicalRep" == role) = false := beq_eq_false_iff_ne.mpr (Ne.symm h6)
    unfold rolePermissions rolePermissionTable
    simp [List.find?, e1, e2, e3, e4, e5, e6]
  · intro role perm h
    simp only [knownPermissions, List.mem_cons, List.not_mem_nil, or_false,
      not_or] at h
    obtain ⟨p1, p2, p3, p4, p5, p6, p7, p8, p9, p10⟩ := h
    have q1 : ("canViewAll" == perm) = false := beq_eq_false_iff_ne.mpr (Ne.symm p1)
    have q2 : ("canAddItems" == perm) = false := beq_eq_false_iff_ne.mpr (Ne.symm p2)
    have q3 : ("canEditItems" == perm) = false := beq_eq_false_iff_ne.mpr (Ne.symm p3)
    have q4 : ("canRemoveItems" == perm) = false := beq_eq_false_iff_ne.mpr (Ne.symm p4)
    have q5 : ("canMoveStock" == perm) = false := beq_eq_false_iff_ne.mpr (Ne.symm p5)
    have q6 : ("canManageUsers" == perm) = false := beq_eq_false_iff_ne.mpr (Ne.symm p6)
    have q7 : ("canViewReports" == perm) = false := beq_eq_false_iff_ne.mpr (Ne.symm p7)
    have q8 : ("canAccessSettings" == perm) = false := beq_eq_false_iff_ne.mpr (Ne.symm p8)
    have q9 : ("canManageSpecialties" == perm) = false :=
      beq_eq_false_iff_ne.mpr (Ne.symm p9)
    have q10 : ("canSeeAllSpecialties" == perm) = false :=
      beq_eq_false_iff_ne.mpr (Ne.symm p10)
    unfold rolePermissions
    cases hf : rolePermissionTable.find? (fun rp => rp.1 == role) with
    | none => rfl
    | some rp =>
      have hmem := List.mem_of_find?_eq_some hf
      unfold rolePermissionTable at hmem
      simp only [List.mem_cons, List.not_mem_nil, or_false] at hmem
      rcases hmem with rfl | rfl | rfl | rfl | rfl | rfl <;>
        simp [List.find?, q1, q2, q3, q4, q5, q6, q7, q8, q9, q10]
  · intro s u perm h
    simp [checkPermission, h]

theorem permission_check_correct_witness :
    storageHasPermission demoState 1 "canMoveStock"
        = rolePermissions demoUser1.role "canMoveStock" ∧
    storageHasPermission demoState 99 "canMoveStock" = false ∧
    rolePermissions "intern" "canMoveStock" = false ∧
    rolePermissions "admin" "canFly" = false ∧
    checkPermission demoState
      { id := 7, username := "carol", password := "h3", name := "Carol",
        role := "ceo", region := none, avatar := none, specialtyId := none }
      "canDoAnythingAtAll" = true :=
  ⟨permission_check_correct.1 demoState 1 "canMoveStock" demoUser1 (by decide),
   permission_check_correct.2.1 demoState 99 "canMoveStock" (by decide),
   permission_check_correct.2.2.1 "intern" "canMoveStock" (by decide),
   permission_check_correct.2.2.2.1 "admin" "canFly" (by decide),
   permission_check_correct.2.2.2.2 demoState
     { id := 7, username := "carol", password := "h3", name := "Carol",
       role := "ceo", region := none, avatar := none, specialtyId := none }
     "canDoAnythingAtAll" rfl⟩

/-- C5: on POST /api/movements, a permitted user whose transaction succeeds
gets 201 with the created movement record; a user who lacks `canMoveStock`
(and is not CEO) is rejected with 403 before any movement is attempted, the
state staying untouched; and `InsufficientStock` / `InvalidArgument` failures
surface as 4xx responses. -/
theorem post_movement_route_correct (s : LedgerState) (u : User) (b : MovementBody)
    (now : Int) :
    (∀ m s', checkPermission s u "canMoveStock" = true →
       moveStock s { stockItemId := b.stockItemId, quantity := b.quantity,
                     fromUserId := b.fromUserId, toUserId := b.toUserId,
                     movedBy := u.id, notes := b.notes } now = (Except.ok m, s') →
       postMovementRoute s u b now
         = ({ status := 201, body := RespBody.movement m }, s')) ∧
    (u.role ≠ "ceo" → storageHasPermission s u.id "canMoveStock" = false →
       postMovementRoute s u b now
         = ({ status := 403,
              body := RespBody.message "Forbidden: Insufficient permissions" }, s)) ∧
    (∀ e s', checkPermission s u "canMoveStock" = true →
       moveStock s { stockItemId := b.stockItemId, quantity := b.quantity,
                     fromUserId := b.fromUserId, toUserId := b.toUserId,
                     movedBy := u.id, notes := b.notes } now = (Except.error e, s') →
       (e = MoveError.InsufficientStock ∨ e = MoveError.InvalidArgument) →
       400 ≤ (postMovementRoute s u b now).1.status ∧
       (postMovementRoute s u b now).1.status < 500) := by
  refine ⟨?_, ?_, ?_⟩
  · intro m s' hperm hmv
    unfold postMovementRoute
    rw [if_pos hperm, hmv]
  · intro hrole hsp
    have hperm : checkPermission s u "canMoveStock" = false := by
      unfold checkPermission
      rw [hsp]
      simp [hrole]
    unfold postMovementRoute
    rw [hperm]
    simp
  · intro e s' hperm hmv hcases
    unfold postMovementRoute
    rw [if_pos hperm, hmv]
    rcases hcases with rfl | rfl <;> simp [errorStatus]

theorem post_movement_route_correct_witness :
    postMovementRoute demoState demoUser1
      { stockItemId := 1, fromUserId := none, toUserId := 2, quantity := 30,
        notes := none } 0
      = ({ status := 201,
           body := RespBody.movement (newMovement demoState
             { stockItemId := 1, quantity := 30, fromUserId := none, toUserId := 2,
               movedBy := 1, notes := none } 0) },
         applyMovement demoState
           { stockItemId := 1, quantity := 30, fromUserId := none, toUserId := 2,
             movedBy := 1, notes := none } 0) ∧
    postMovementRoute demoState demoUser2
      { stockItemId := 1, fromUserId := none, toUserId := 2, quantity := 30,
        notes := none } 0
      = ({ status := 403,
           body := RespBody.message "Forbidden: Insufficient permissions" },
         demoState) ∧
    400 ≤ (postMovementRoute demoState demoUser1
      { stockItemId := 1, fromUserId := none, toUserId := 2, quantity := 150,
        notes := none } 0).1.status ∧
    (postMovementRoute demoState demoUser1
      { stockItemId := 1, fromUserId := none, toUserId := 2, quantity := 150,
        notes := none } 0).1.status < 500 :=
  ⟨(post_movement_route_correct demoState demoUser1
      { stockItemId := 1, fromUserId := none, toUserId := 2, quantity := 30,
        notes := none } 0).1 _ _ (by decide) rfl,
   (post_movement_route_correct demoState demoUser2
      { stockItemId := 1, fromUserId := none, toUserId := 2, quantity := 30,
        notes := none } 0).2.1 (by decide) (by decide),
   (post_movement_route_correct demoState demoUser1
      { stockItemId := 1, fromUserId := none, toUserId := 2, quantity := 150,
        notes := none } 0).2.2 MoveError.InsufficientStock demoState (by decide)
     rfl (Or.inl rfl)⟩

/-! ## Claim theorems: GET /api/stock-items/expiring (C6) -/

theorem strToInt?_empty : strToInt? "" = none := rfl

theorem beq_empty_false_of_some (str : String) (n : Int)
    (hs : strToInt? str = some n) : (str == "") = false := by
  cases hb : (str == "") with
  | false => rfl
  | true =>
    have he : str = "" := eq_of_beq hb
    rw [he, strToInt?_empty] at hs
    cases hs

theorem parseDays_some_eval (str : String) (hb : (str == "") = false) :
    parseDays (some str) =
      (match strToInt? str with
       | none => Except.error "Days must be a positive integer"
       | some n =>
         if n < 1 then Except.error "Days must be a positive integer"
         else Except.ok n) := by
  simp only [parseDays, hb, Bool.false_eq_true, if_false]

theorem parseDays_some_valid (str : String) (n : Int)
    (hs : strToInt? str = some n) (hn : 1 ≤ n) :
    parseDays (some str) = Except.ok n := by
  rw [parseDays_some_eval str (beq_empty_false_of_some str n hs), hs]
  show (if n < 1 then Except.error "Days must be a positive integer"
      else Except.ok n) = Except.ok n
  rw [if_neg (by omega : ¬ n < 1)]

theorem parseDays_some_low (str : String) (n : Int)
    (hs : strToInt? str = some n) (hn : n < 1) :
    parseDays (some str) = Except.error "Days must be a positive integer" := by
  rw [parseDays_some_eval str (beq_empty_false_of_some str n hs), hs]
  show (if n < 1 then Except.error "Days must be a positive integer"
      else Except.ok n) = Except.error "Days must be a positive integer"
  rw [if_pos hn]

theorem parseDays_some_bad (str : String) (hne : str ≠ "")
    (hs : strToInt? str = none) :
    parseDays (some str) = Except.error "Days must be a positive integer" := by
  have hb : (str == "") = false := by
    cases hb : (str == "") with
    | false => rfl
    | true => exact absurd (eq_of_beq hb) hne
  rw [parseDays_some_eval str hb, hs]

theorem parseDays_ok_ge_one (q : Option String) (d : Int)
    (h : parseDays q = Except.ok d) : 1 ≤ d := by
  unfold parseDays at h
  revert h
  cases strToInt? (match q with
      | none => "30"
      | some str => if str == "" then "30" else str) with
  | none =>
    intro h
    cases h
  | some n =>
    show (if n < 1 then Except.error "Days must be a positive integer"
        else Except.ok n) = Except.ok d → 1 ≤ d
    by_cases hlt : n < 1
    · rw [if_pos hlt]
      intro h
      cases h
    · rw [if_neg hlt]
      intro h
      injection h with h2
      omega

/-- C6: the `days` query parameter defaults to 30 when absent or empty; a
string whose numeric value is an integer of at least 1 is accepted as that
value with no upper bound; every accepted value is at least 1; non-positive
and non-numeric values fail validation; and on success the response is 200
with exactly the stock items whose expiry timestamp lies within
[now, now + days]. -/
theorem expiring_route_correct :
    parseDays none = Except.ok 30 ∧
    parseDays (some "") = Except.ok 30 ∧
    (∀ str n, strToInt? str = some n → 1 ≤ n → parseDays (some str) = Except.ok n) ∧
    (∀ q d, parseDays q = Except.ok d → 1 ≤ d) ∧
    (∀ str n, strToInt? str = some n → n < 1 →
       parseDays (some str) = Except.error "Days must be a positive integer") ∧
    (∀ str, str ≠ "" → strToInt? str = none →
       parseDays (some str) = Except.error "Days must be a positive integer") ∧
    (∀ (s : LedgerState) (now : Int) (q : Option String) (d : Int),
       parseDays q = Except.ok d →
       getExpiringRoute s now q
         = { status := 200, body := RespBody.items (getExpiringItems s now d) }) ∧
    (∀ (s : LedgerState) (now d : Int) (it : StockItem),
       it ∈ getExpiringItems s now d ↔
         it ∈ s.items ∧ ∃ e, it.expiry = some e ∧ now ≤ e ∧ e ≤ now + d) := by
  refine ⟨rfl, rfl, parseDays_some_valid, parseDays_ok_ge_one, parseDays_some_low,
    parseDays_some_bad, ?_, ?_⟩
  · intro s now q d h
    unfold getExpiringRoute
    rw [h]
  · intro s now d it
    simp only [getExpiringItems, List.mem_filter, expiresWithin]
    cases hx : it.expiry with
    | none => simp
    | some e => simp

theorem expiring_route_correct_witness :
    parseDays (some "365") = Except.ok 365 ∧
    1 ≤ (365 : Int) ∧
    parseDays (some "0") = Except.error "Days must be a positive integer" ∧
    parseDays (some "nextweek") = Except.error "Days must be a positive integer" ∧
    getExpiringRoute demoState 0 none
      = { status := 200, body := RespBody.items (getExpiringItems demoState 0 30) } :=
  ⟨expiring_route_correct.2.2.1 "365" 365 (by decide) (by decide),
   by decide,
   expiring_route_correct.2.2.2.2.1 "0" 0 (by decide) (by decide),
   expiring_route_correct.2.2.2.2.2.1 "nextweek" (by decide) (by decide),
   expiring_route_correct.2.2.2.2.2.2.1 demoState 0 none 30
     expiring_route_correct.1⟩

/-! ## Claim theorems: DELETE /api/stock-items/:id (C8) -/

/-- C8: deleting an existing stock item answers 204, removes exactly the
rows with that id from the item table while leaving allocations and the
movement log untouched, and removes the item's uploaded image file when it
has one; deleting an unknown id answers 404 and changes neither the store
nor the upload directory. -/
theorem delete_stock_item_route_correct (s : LedgerState) (files : List String)
    (id : Nat) :
    (∀ item, getStockItem s id = some item →
       (deleteStockItemRoute s files id).1.status = 204 ∧
       (∀ it ∈ ((deleteStockItemRoute s files id).2.1).items, it.id ≠ id) ∧
       (∀ it ∈ s.items, it.id ≠ id → it ∈ ((deleteStockItemRoute s files id).2.1).items) ∧
       ((deleteStockItemRoute s files id).2.1).allocations = s.allocations ∧
       ((deleteStockItemRoute s files id).2.1).movements = s.movements ∧
       (∀ url, item.imageUrl = some url → url ∉ (deleteStockItemRoute s files id).2.2)) ∧
    (getStockItem s id = none →
       deleteStockItemRoute s files id
         = ({ status := 404, body := RespBody.message "Stock item not found" },
            s, files)) := by
  constructor
  · intro item hitem
    have hds : deleteStockItem s id
        = (true, { s with items := s.items.filter (fun it => it.id != id) }) := by
      unfold deleteStockItem
      rw [hitem]
      rfl
    have hroute : deleteStockItemRoute s files id
        = ({ status := 204, body := RespBody.empty },
           { s with items := s.items.filter (fun it => it.id != id) },
           match item.imageUrl with
           | some url => files.filter (fun f => f != url)
           | none => files) := by
      unfold deleteStockItemRoute
      rw [hitem, hds]
    rw [hroute]
    refine ⟨rfl, ?_, ?_, rfl, rfl, ?_⟩
    · intro it hit
      have hb := (List.mem_filter.mp hit).2
      simpa using hb
    · intro it hit hne
      exact List.mem_filter.mpr ⟨hit, by simpa using hne⟩
    · intro url hurl
      rw [hurl]
      intro hmem
      have hb := (List.mem_filter.mp hmem).2
      simp at hb
  · intro hnone
    unfold deleteStockItemRoute
    rw [hnone]

/-- A demo stock item that carries an uploaded image. -/
def demoItemImg : StockItem :=
  { id := 2, name := "Ibuprofen", categoryId := 1, specialtyId := none,
    quantity := 20, price := 0, expiry := none, uniqueNumber := none,
    imageUrl := some "/uploads/img1.png", notes := none, createdBy := 1 }

/-- A demo store holding the image-carrying item. -/
def demoStateImg : LedgerState :=
  { demoState with items := [demoItem, demoItemImg], nextItemId := 3 }

/-- The demo upload directory contents. -/
def demoFiles : List String := ["/uploads/img1.png", "/uploads/other.png"]

theorem delete_stock_item_route_correct_witness :
    (deleteStockItemRoute demoStateImg demoFiles 2).1.status = 204 ∧
    "/uploads/img1.png" ∉ (deleteStockItemRoute demoStateImg demoFiles 2).2.2 ∧
    deleteStockItemRoute demoStateImg demoFiles 99
      = ({ status := 404, body := RespBody.message "Stock item not found" },
         demoStateImg, demoFiles) :=
  ⟨((delete_stock_item_route_correct demoStateImg demoFiles 2).1 demoItemImg
      (by decide)).1,
   ((delete_stock_item_route_correct demoStateImg demoFiles 2).1 demoItemImg
      (by decide)).2.2.2.2.2 "/uploads/img1.png" rfl,
   (delete_stock_item_route_correct demoStateImg demoFiles 99).2 (by decide)⟩

/-! ## Claim theorems: password stripping (C9) and registration (C10) -/

theorem safeUserFields_no_password (u : User) :
    ∀ kv ∈ safeUserFields u, kv.1 ≠ "password" := by
  intro kv hkv
  have h := (List.mem_filter.mp hkv).2
  simpa using h

/-- C9: every endpoint that returns user data — GET /api/users,
GET /api/users/:id, PUT /api/users/:id, POST /api/register, POST /api/login
and GET /api/user — serializes users through the rest-spread that removes the
`password` key, so no user object in any of their responses carries a
`password` field. -/
theorem user_routes_strip_password :
    (∀ (s : LedgerState) (roleF : Option String),
        responseHasNoPassword (getUsersRoute s roleF)) ∧
    (∀ (s : LedgerState) (id : Nat), responseHasNoPassword (getUserRoute s id)) ∧
    (∀ (s : LedgerState) (hashFn : String → String) (id : Nat) (b : UserUpdateBody),
        responseHasNoPassword (updateUserRoute s hashFn id b).1) ∧
    (∀ (s : LedgerState) (hashFn : String → String) (b : RegisterBody),
        responseHasNoPassword (registerRoute s hashFn b).1) ∧
    (∀ (s : LedgerState) (verify : String → String → Bool) (un pw : String),
        responseHasNoPassword (loginRoute s verify un pw)) ∧
    (∀ ou, responseHasNoPassword (currentUserRoute ou)) := by
  refine ⟨?_, ?_, ?_, ?_, ?_, ?_⟩
  · intro s roleF fl hfl kv hkv
    unfold getUsersRoute bodyUserFieldLists at hfl
    simp only [List.mem_map] at hfl
    rcases hfl with ⟨u, hu, rfl⟩
    exact safeUserFields_no_password u kv hkv
  · intro s id fl hfl kv hkv
    unfold getUserRoute at hfl
    cases hu : getUser s id with
    | none =>
      rw [hu] at hfl
      simp [bodyUserFieldLists] at hfl
    | some u =>
      rw [hu] at hfl
      simp only [bodyUserFieldLists, List.mem_singleton] at hfl
      subst hfl
      exact safeUserFields_no_password u kv hkv
  · intro s hashFn id b fl hfl kv hkv
    unfold updateUserRoute at hfl
    cases hu : getUser s id with
    | none =>
      rw [hu] at hfl
      simp [bodyUserFieldLists] at hfl
    | some u =>
      rw [hu] at hfl
      simp only [bodyUserFieldLists, List.mem_singleton] at hfl
      subst hfl
      exact safeUserFields_no_password _ kv hkv
  · intro s hashFn b fl hfl kv hkv
    unfold registerRoute at hfl
    cases hu : getUserByUsername s b.username with
    | some u =>
      rw [hu] at hfl
      simp [bodyUserFieldLists] at hfl
    | none =>
      rw [hu] at hfl
      simp only [bodyUserFieldLists, List.mem_singleton] at hfl
      subst hfl
      exact safeUserFields_no_password _ kv hkv
  · intro s verify un pw fl hfl kv hkv
    unfold loginRoute at hfl
    cases hu : getUserByUsername s un with
    | none =>
      rw [hu] at hfl
      simp [bodyUserFieldLists] at hfl
    | some u =>
      rw [hu] at hfl
      by_cases hv : verify pw u.password
      · simp only [if_pos hv, bodyUserFieldLists, List.mem_singleton] at hfl
        subst hfl
        exact safeUserFields_no_password u kv hkv
      · simp only [if_neg hv, bodyUserFieldLists] at hfl
        simp at hfl
  · intro ou fl hfl kv hkv
    cases ou with
    | none => simp [currentUserRoute, bodyUserFieldLists] at hfl
    | some u =>
      simp only [currentUserRoute, bodyUserFieldLists, List.mem_singleton] at hfl
      subst hfl
      exact safeUserFields_no_password u kv hkv

theorem user_routes_strip_password_witness :
    responseHasNoPassword (getUsersRoute demoState none) ∧
    responseHasNoPassword (getUserRoute demoState 1) ∧
    responseHasNoPassword (currentUserRoute (some demoUser1)) :=
  ⟨user_routes_strip_password.1 demoState none,
   user_routes_strip_password.2.1 demoState 1,
   user_routes_strip_password.2.2.2.2.2 (some demoUser1)⟩

/-- C10: POST /api/register stores every newly registered user with role
"medicalRep", whatever role the request body carried, and stores the hash of
the supplied password (the scrypt primitive abstracted as `hashFn`), never
the plaintext field itself; the response is 201. -/
theorem register_forces_role_and_hash (s : LedgerState) (hashFn : String → String)
    (b : RegisterBody) (h : getUserByUsername s b.username = none) :
    (registerRoute s hashFn b).1.status = 201 ∧
    (registerRoute s hashFn b).2.users = s.users ++
      [{ id := s.nextUserId, username := b.username, password := hashFn b.password,
         name := b.name, role := "medicalRep", region := b.region,
         avatar := some "", specialtyId := none }] := by
  unfold registerRoute
  rw [h]
  exact ⟨rfl, rfl⟩

theorem register_forces_role_and_hash_witness :
    (registerRoute demoState
        (fun pw => pw ++ "-hashed")
        { username := "carol", password := "secret", name := "Carol",
          role := "ceo", region := none }).1.status = 201 ∧
    (registerRoute demoState
        (fun pw => pw ++ "-hashed")
        { username := "carol", password := "secret", name := "Carol",
          role := "ceo", region := none }).2.users = demoState.users ++
      [{ id := 3, username := "carol", password := "secret-hashed",
         name := "Carol", role := "medicalRep", region := none,
         avatar := some "", specialtyId := none }] :=
  register_forces_role_and_hash demoState (fun pw => pw ++ "-hashed")
    { username := "carol", password := "secret", name := "Carol",
      role := "ceo", region := none } (by decide)

end PharmStock
